import Mathlib

/-!
Verification development for the pose-sequence matching engine of the
"disguise" canvas game.  The definitions below are a shallow embedding of
the JavaScript classes `SequenceMatcher` and the arbitration logic of
`Game.checkPlayerMatches`.  JavaScript numbers are modelled as rationals
(all constants involved are exact decimal fractions), nullable pose states
as `Option PoseState`, the `-Infinity` initial value of `lastMatchFrame`
as `none`, and the sentinel index `-1` of `findBestStartingPosition` as
`none`.  The cached constructor fields `sequenceLength`, `uniqueStates`
and `statePatternLength` of `SequenceMatcher` are never read after
construction (the sequence is immutable), so the embedding reads
`sequence.length` directly and omits the two dead caches.
-/

namespace Disguise

/-- The discrete pose of a figure: four limb flags plus the cosmetic lamp
flag (`states` object in the source). -/
structure PoseState where
  leftArmRaised : Bool
  rightArmRaised : Bool
  leftLegRaised : Bool
  rightLegRaised : Bool
  lampBlinking : Bool
deriving DecidableEq, Repr

/-- `MATCHING_CONFIG.CONFIDENCE_MATCH`: reward for a perfect match. -/
def CONFIDENCE_MATCH : ℚ := 1/4

/-- `MATCHING_CONFIG.CONFIDENCE_DECAY_ACTIVE`: penalty for a wrong active pose. -/
def CONFIDENCE_DECAY_ACTIVE : ℚ := 1/4

/-- `MATCHING_CONFIG.CONFIDENCE_DECAY_MIXED`: penalty when exactly one side is active. -/
def CONFIDENCE_DECAY_MIXED : ℚ := 1/10

/-- `MATCHING_CONFIG.CONFIDENCE_DECAY_IDLE`: penalty for idle-to-idle (zero). -/
def CONFIDENCE_DECAY_IDLE : ℚ := 0

/-- `MATCHING_CONFIG.QUALITY_THRESHOLD_BUILD`. -/
def QUALITY_THRESHOLD_BUILD : ℚ := 1/10

/-- `MATCHING_CONFIG.QUALITY_THRESHOLD_CONFIRM`. -/
def QUALITY_THRESHOLD_CONFIRM : ℚ := 7/20

/-- `MATCHING_CONFIG.GRACE_PERIOD`. -/
def GRACE_PERIOD : Nat := 60

/-- The mutable state of one `SequenceMatcher` instance. -/
structure SequenceMatcher where
  sequence : List PoseState
  matchPosition : Nat
  cyclesCompleted : Nat
  confidenceScore : ℚ
  lastMatchFrame : Option Int
  isActive : Bool
deriving DecidableEq, Repr

/-- The `SequenceMatcher` constructor: stores the reference frames and
zeroes the tracking fields. -/
def mkMatcher (enemySequenceFrames : List PoseState) : SequenceMatcher :=
  { sequence := enemySequenceFrames
    matchPosition := 0
    cyclesCompleted := 0
    confidenceScore := 0
    lastMatchFrame := none
    isActive := false }

/-- `SequenceMatcher.statesEqual`: a null argument is never equal;
otherwise structural equality over the four limb fields only. -/
def statesEqual : Option PoseState → Option PoseState → Bool
  | some state1, some state2 =>
      state1.leftArmRaised == state2.leftArmRaised &&
      state1.rightArmRaised == state2.rightArmRaised &&
      state1.leftLegRaised == state2.leftLegRaised &&
      state1.rightLegRaised == state2.rightLegRaised
  | _, _ => false

/-- `SequenceMatcher.isActiveState`: a null state is not active; otherwise
true iff some limb flag is raised. -/
def isActiveState : Option PoseState → Bool
  | some state =>
      state.leftArmRaised || state.rightArmRaised ||
      state.leftLegRaised || state.rightLegRaised
  | none => false

/-- The scan loop of `findBestStartingPosition`: first index whose frame
is active and structurally equal to the player state. -/
def findFrom (playerState : Option PoseState) : List PoseState → Option Nat
  | [] => none
  | s :: rest =>
      if isActiveState (some s) && statesEqual playerState (some s) then some 0
      else (findFrom playerState rest).map (fun n => n + 1)

/-- `SequenceMatcher.findBestStartingPosition`: idle player states never
seed a match; otherwise scan the whole sequence in index order.  The JS
sentinel `-1` is rendered as `none`. -/
def findBestStartingPosition (m : SequenceMatcher) (playerState : Option PoseState) :
    Option Nat :=
  if !isActiveState playerState then none
  else findFrom playerState m.sequence

/-- `SequenceMatcher.updateMatch`: returns the JS boolean result together
with the mutated matcher. -/
def updateMatch (m : SequenceMatcher) (playerState : Option PoseState)
    (frameNumber : Int) : Bool × SequenceMatcher :=
  let expectedState := m.sequence[m.matchPosition]?
  if statesEqual playerState expectedState then
    (true, { m with
      confidenceScore := min 1 (m.confidenceScore + CONFIDENCE_MATCH)
      lastMatchFrame := some frameNumber
      isActive := true })
  else if !isActiveState playerState && !isActiveState expectedState then
    (true, { m with
      lastMatchFrame := some frameNumber
      confidenceScore := max 0 (m.confidenceScore - CONFIDENCE_DECAY_IDLE) })
  else if isActiveState playerState && isActiveState expectedState then
    (false, { m with
      confidenceScore := max 0 (m.confidenceScore - CONFIDENCE_DECAY_ACTIVE)
      isActive := false })
  else
    (true, { m with
      confidenceScore := max 0 (m.confidenceScore - CONFIDENCE_DECAY_MIXED) })

/-- `SequenceMatcher.advancePosition`. -/
def advancePosition (m : SequenceMatcher) : SequenceMatcher :=
  let newPos := m.matchPosition + 1
  if newPos ≥ m.sequence.length then
    { m with matchPosition := 0, cyclesCompleted := m.cyclesCompleted + 1 }
  else
    { m with matchPosition := newPos }

/-- `SequenceMatcher.reset`. -/
def reset (m : SequenceMatcher) : SequenceMatcher :=
  { m with
    matchPosition := 0
    cyclesCompleted := 0
    confidenceScore := 0
    lastMatchFrame := none
    isActive := false }

/-- `SequenceMatcher.getMatchQuality`. -/
def getMatchQuality (m : SequenceMatcher) : ℚ := m.confidenceScore

/-- `SequenceMatcher.isFullCycleComplete`. -/
def isFullCycleComplete (m : SequenceMatcher) : Bool :=
  decide (m.cyclesCompleted > 0) && decide (m.matchPosition = 0)

/-- The caller idiom used on every tick: `updateMatch`, then
`advancePosition` exactly when the update returned `true`. -/
def stepMatcher (m : SequenceMatcher) (playerState : Option PoseState)
    (frameNumber : Int) : SequenceMatcher :=
  let r := updateMatch m playerState frameNumber
  if r.1 then advancePosition r.2 else r.2

/-- Run a finite list of update/advance steps at a fixed frame number. -/
def runMatcher (frameNumber : Int) : SequenceMatcher → List (Option PoseState) →
    SequenceMatcher
  | m, [] => m
  | m, p :: rest => runMatcher frameNumber (stepMatcher m p frameNumber) rest

/-- Run a finite list of bare `updateMatch` calls (no advancing), with an
arbitrary frame number per call. -/
def runUpdates : SequenceMatcher → List (Option PoseState × Int) → SequenceMatcher
  | m, [] => m
  | m, (p, f) :: rest => runUpdates (updateMatch m p f).2 rest

/-- The confidence recurrence of consecutive perfect matches. -/
def rewardIter : Nat → ℚ → ℚ
  | 0, c => c
  | n + 1, c => rewardIter n (min 1 (c + CONFIDENCE_MATCH))

/-- The per-player arbitration state living on the `Player` object:
one matcher per enemy (enemies are identified by their fixed creation
index), the building and confirmed candidates, and the grace counter. -/
structure ArbState where
  matchers : List SequenceMatcher
  currentCandidate : Option Nat
  confirmedCandidate : Option Nat
  graceFrames : Nat
deriving DecidableEq, Repr

/-- Placeholder used to make list indexing total; every theorem about the
arbitrator either supplies an in-range index or shows the placeholder
cannot influence the result. -/
def defaultMatcher : SequenceMatcher := mkMatcher []

/-- Pointwise list update (the mutation of one entry of the matcher map). -/
def updAt {α : Type} : Nat → (α → α) → List α → List α
  | _, _, [] => []
  | 0, f, a :: l => f a :: l
  | n + 1, f, a :: l => a :: updAt n f l

/-- The state transition of the unconfirmed half of `checkPlayerMatches`
(lines 739-758): promote on a completed cycle, otherwise keep building,
otherwise drop the current candidate. -/
def buildTransition (g : ArbState) (ms : List SequenceMatcher)
    (bestEnemy : Option Nat) (bestMatchQuality : ℚ) : ArbState :=
  match bestEnemy with
  | some b =>
      if bestMatchQuality > QUALITY_THRESHOLD_BUILD then
        if (ms.getD b defaultMatcher).cyclesCompleted > 0 then
          { matchers := ms
            confirmedCandidate := some b
            currentCandidate := some b
            graceFrames := 0 }
        else
          { g with matchers := ms, currentCandidate := some b }
      else
        { g with matchers := ms, currentCandidate := none }
  | none => { g with matchers := ms, currentCandidate := none }

/-- The confirmed half of `checkPlayerMatches` (lines 669-677 and
712-737): update only the confirmed matcher, then either hold the match
(grace counter cleared), burn one grace frame, or on grace expiry clear
both candidates and reset every matcher.  In this branch the JS variable
`bestEnemy` is assigned the confirmed enemy itself, so the comparison
`bestEnemy === confirmedMatchEnemy` is kept literally. -/
def confirmedTick (g : ArbState) (e : Nat) (playerState : PoseState)
    (frameNumber : Int) : ArbState :=
  let m2 := stepMatcher (g.matchers.getD e defaultMatcher) (some playerState) frameNumber
  let ms := updAt e (fun _ => m2) g.matchers
  let bestEnemy : Option Nat := some e
  if bestEnemy = some e ∧ getMatchQuality m2 > QUALITY_THRESHOLD_CONFIRM then
    { g with matchers := ms, graceFrames := 0 }
  else if g.graceFrames + 1 < GRACE_PERIOD then
    { g with matchers := ms, graceFrames := g.graceFrames + 1 }
  else
    { matchers := ms.map reset
      currentCandidate := none
      confirmedCandidate := none
      graceFrames := g.graceFrames + 1 }

/-- The candidate-search loop of `checkPlayerMatches` (lines 688-709),
carried out left to right over the enemies in creation order with the
running best (`bestEnemy`, `bestMatchQuality`) accumulator; returns the
selected index, its quality, and the updated matcher list. -/
def scanGo (playerState : PoseState) (frameNumber : Int) :
    List SequenceMatcher → Nat → Option Nat → ℚ →
    Option Nat × ℚ × List SequenceMatcher
  | [], _, bestEnemy, bestQ => (bestEnemy, bestQ, [])
  | m :: rest, i, bestEnemy, bestQ =>
      match findBestStartingPosition m (some playerState) with
      | none =>
          let r := scanGo playerState frameNumber rest (i + 1) bestEnemy bestQ
          (r.1, r.2.1, m :: r.2.2)
      | some startPos =>
          let m2 := stepMatcher { reset m with matchPosition := startPos }
            (some playerState) frameNumber
          let quality := getMatchQuality m2
          if quality > bestQ then
            let r := scanGo playerState frameNumber rest (i + 1) (some i) quality
            (r.1, r.2.1, m2 :: r.2.2)
          else
            let r := scanGo playerState frameNumber rest (i + 1) bestEnemy bestQ
            (r.1, r.2.1, m2 :: r.2.2)

/-- What the scan does to one individual matcher: nothing on a miss; on a
hit, reset, seed at the found index and run one update/advance step. -/
def procMatcher (playerState : PoseState) (frameNumber : Int)
    (m : SequenceMatcher) : SequenceMatcher :=
  match findBestStartingPosition m (some playerState) with
  | none => m
  | some startPos =>
      stepMatcher { reset m with matchPosition := startPos } (some playerState) frameNumber

/-- `Game.checkPlayerMatches` for one tick: warm-up guard, one of the
three update branches, then the candidate state transition. -/
def checkPlayerMatches (g : ArbState) (historyLen : Nat) (playerState : PoseState)
    (frameNumber : Int) : ArbState :=
  if historyLen < 5 then g
  else
    match g.confirmedCandidate with
    | some e => confirmedTick g e playerState frameNumber
    | none =>
        match g.currentCandidate with
        | some c =>
            let m2 := stepMatcher (g.matchers.getD c defaultMatcher)
              (some playerState) frameNumber
            buildTransition g (updAt c (fun _ => m2) g.matchers) (some c)
              (getMatchQuality m2)
        | none =>
            let r := scanGo playerState frameNumber g.matchers 0 none 0
            buildTransition g r.2.2 r.1 r.2.1

/-- Iterate `checkPlayerMatches` over a list of player states. -/
def runTicks (historyLen : Nat) (frameNumber : Int) :
    ArbState → List PoseState → ArbState
  | g, [] => g
  | g, p :: rest =>
      runTicks historyLen frameNumber (checkPlayerMatches g historyLen p frameNumber) rest

/-- Each listed player frame is structurally unequal to the frame the
matcher expects at the moment it is fed (the matcher advancing exactly as
the confirmed branch of the arbitrator advances it). -/
def mismatchRun (frameNumber : Int) : SequenceMatcher → List PoseState → Bool
  | _, [] => true
  | m, p :: rest =>
      !statesEqual (some p) m.sequence[m.matchPosition]? &&
      mismatchRun frameNumber (stepMatcher m (some p) frameNumber) rest

/-- Sample pose: everything lowered. -/
def poseIdle : PoseState := ⟨false, false, false, false, false⟩

/-- Sample pose: left arm raised. -/
def poseL : PoseState := ⟨true, false, false, false, false⟩

/-- Sample pose: right arm raised. -/
def poseR : PoseState := ⟨false, true, false, false, false⟩

/-- A confirmed arbitration state at full confidence over the one-frame
reference sequence `[poseL]`. -/
def ceMatcher : SequenceMatcher :=
  { sequence := [poseL]
    matchPosition := 0
    cyclesCompleted := 1
    confidenceScore := 1
    lastMatchFrame := some 0
    isActive := true }

/-- Arbitration state with `ceMatcher` confirmed and no grace spent. -/
def ceState : ArbState :=
  { matchers := [ceMatcher]
    currentCandidate := some 0
    confirmedCandidate := some 0
    graceFrames := 0 }

/-- A freshly confirmed arbitration state whose matcher confidence sits at
the reward constant (below the confirm threshold). -/
def loState : ArbState :=
  { matchers := [{ sequence := [poseL]
                   matchPosition := 0
                   cyclesCompleted := 1
                   confidenceScore := 1/4
                   lastMatchFrame := some 0
                   isActive := true }]
    currentCandidate := some 0
    confirmedCandidate := some 0
    graceFrames := 0 }

/-! ## Basic facts about the matcher primitives -/

lemma updateMatch_sequence (m : SequenceMatcher) (p : Option PoseState) (f : Int) :
    (updateMatch m p f).2.sequence = m.sequence := by
  unfold updateMatch; dsimp only; split_ifs <;> rfl

lemma updateMatch_matchPosition (m : SequenceMatcher) (p : Option PoseState) (f : Int) :
    (updateMatch m p f).2.matchPosition = m.matchPosition := by
  unfold updateMatch; dsimp only; split_ifs <;> rfl

lemma updateMatch_cyclesCompleted (m : SequenceMatcher) (p : Option PoseState) (f : Int) :
    (updateMatch m p f).2.cyclesCompleted = m.cyclesCompleted := by
  unfold updateMatch; dsimp only; split_ifs <;> rfl

lemma advancePosition_sequence (m : SequenceMatcher) :
    (advancePosition m).sequence = m.sequence := by
  unfold advancePosition; dsimp only; split_ifs <;> rfl

lemma advancePosition_confidenceScore (m : SequenceMatcher) :
    (advancePosition m).confidenceScore = m.confidenceScore := by
  unfold advancePosition; dsimp only; split_ifs <;> rfl

lemma stepMatcher_sequence (m : SequenceMatcher) (p : Option PoseState) (f : Int) :
    (stepMatcher m p f).sequence = m.sequence := by
  unfold stepMatcher; dsimp only; split_ifs
  · rw [advancePosition_sequence, updateMatch_sequence]
  · rw [updateMatch_sequence]

lemma reset_eq_mkMatcher (m : SequenceMatcher) : reset m = mkMatcher m.sequence := rfl

lemma reset_stepMatcher (m : SequenceMatcher) (p : Option PoseState) (f : Int) :
    reset (stepMatcher m p f) = reset m := by
  rw [reset_eq_mkMatcher, reset_eq_mkMatcher, stepMatcher_sequence]

lemma statesEqual_refl (s : PoseState) : statesEqual (some s) (some s) = true := by
  simp [statesEqual]

/-! ## List helper lemmas for the matcher map -/

lemma updAt_length {α : Type} (n : Nat) (f : α → α) (l : List α) :
    (updAt n f l).length = l.length := by
  induction l generalizing n with
  | nil => cases n <;> rfl
  | cons a t ih =>
      cases n with
      | zero => rfl
      | succ k => simpa [updAt] using ih k

lemma updAt_getD_self {α : Type} (n : Nat) (f : α → α) (l : List α) (d : α)
    (h : n < l.length) : (updAt n f l).getD n d = f (l.getD n d) := by
  induction l generalizing n with
  | nil => simp at h
  | cons a t ih =>
      cases n with
      | zero => rfl
      | succ k =>
          simp only [updAt, List.getD_cons_succ]
          exact ih k (by simpa using h)

lemma getD_map_reset (l : List SequenceMatcher) (n : Nat) (h : n < l.length) :
    (l.map reset).getD n defaultMatcher = reset (l.getD n defaultMatcher) := by
  rw [List.getD_eq_getElem?_getD, List.getD_eq_getElem?_getD, List.getElem?_map,
    List.getElem?_eq_getElem h]
  rfl

lemma updAt_map_reset (l : List SequenceMatcher) (e : Nat) (m2 : SequenceMatcher)
    (h : ∀ d, reset m2 = reset (l.getD e d)) :
    (updAt e (fun _ => m2) l).map reset = l.map reset := by
  induction l generalizing e with
  | nil => cases e <;> rfl
  | cons a t ih =>
      cases e with
      | zero =>
          simp only [updAt, List.map_cons, List.cons.injEq]
          exact ⟨h a, trivial⟩
      | succ k =>
          simp only [updAt, List.map_cons, List.cons.injEq]
          exact ⟨trivial, ih k (fun d => h d)⟩

/-! ## Claim C8: null pose states never match and are never active -/

/-- C8: comparison with a null/absent state is total: `statesEqual` with a
null argument on either (or both) sides returns `false`, and
`isActiveState` of a null state returns `false`. -/
theorem null_states_never_match (s : PoseState) :
    statesEqual none (some s) = false ∧
    statesEqual (some s) none = false ∧
    statesEqual none none = false ∧
    isActiveState none = false :=
  ⟨rfl, rfl, rfl, rfl⟩

/-! ## Claim C9: structural equality is reflexive, symmetric and ignores
the lamp field -/

/-- C9: `statesEqual` on non-null states is reflexive, symmetric, and its
result does not depend on the `lampBlinking` field of either argument. -/
theorem statesEqual_refl_symm_ignores_lamp (a b : PoseState) (x y : Bool) :
    statesEqual (some a) (some a) = true ∧
    statesEqual (some a) (some b) = statesEqual (some b) (some a) ∧
    statesEqual (some { a with lampBlinking := x }) (some { b with lampBlinking := y }) =
      statesEqual (some a) (some b) := by
  obtain ⟨a1, a2, a3, a4, a5⟩ := a
  obtain ⟨b1, b2, b3, b4, b5⟩ := b
  revert a1 a2 a3 a4 a5 b1 b2 b3 b4 b5 x y
  decide

/-! ## Claim C7: warm-up guard -/

/-- C7: with fewer than 5 recorded history frames the arbitrator performs
no work: every matcher field and all candidate/grace state is returned
exactly unchanged. -/
theorem warmup_guard (g : ArbState) (historyLen : Nat) (p : PoseState) (fc : Int)
    (h : historyLen < 5) : checkPlayerMatches g historyLen p fc = g := by
  unfold checkPlayerMatches
  rw [if_pos h]

theorem warmup_guard_witness : checkPlayerMatches ceState 4 poseL 0 = ceState :=
  warmup_guard ceState 4 poseL 0 (by decide)

/-! ## Claim C1: the four cases of updateMatch -/

/-- C1: with the expected reference frame present at `matchPosition`,
`updateMatch` takes the first applicable of its four cases — perfect
match (reward, `lastMatchFrame`, `isActive`, returns true), idle/idle
(idle decay, `lastMatchFrame`, returns true), active/active mismatch
(active decay, clears `isActive`, returns false), mixed (mixed decay,
returns true) — and `matchPosition` and `cyclesCompleted` are unchanged
in every case. -/
theorem updateMatch_four_cases (m : SequenceMatcher) (p s : PoseState) (f : Int)
    (hs : m.sequence[m.matchPosition]? = some s) :
    (statesEqual (some p) (some s) = true →
      updateMatch m (some p) f =
        (true, { m with
          confidenceScore := min 1 (m.confidenceScore + CONFIDENCE_MATCH)
          lastMatchFrame := some f
          isActive := true })) ∧
    (statesEqual (some p) (some s) = false →
      isActiveState (some p) = false → isActiveState (some s) = false →
      updateMatch m (some p) f =
        (true, { m with
          lastMatchFrame := some f
          confidenceScore := max 0 (m.confidenceScore - CONFIDENCE_DECAY_IDLE) })) ∧
    (statesEqual (some p) (some s) = false →
      isActiveState (some p) = true → isActiveState (some s) = true →
      updateMatch m (some p) f =
        (false, { m with
          confidenceScore := max 0 (m.confidenceScore - CONFIDENCE_DECAY_ACTIVE)
          isActive := false })) ∧
    (statesEqual (some p) (some s) = false →
      isActiveState (some p) ≠ isActiveState (some s) →
      updateMatch m (some p) f =
        (true, { m with
          confidenceScore := max 0 (m.confidenceScore - CONFIDENCE_DECAY_MIXED) })) ∧
    (updateMatch m (some p) f).2.matchPosition = m.matchPosition ∧
    (updateMatch m (some p) f).2.cyclesCompleted = m.cyclesCompleted := by
  refine ⟨?_, ?_, ?_, ?_, updateMatch_matchPosition m (some p) f,
    updateMatch_cyclesCompleted m (some p) f⟩
  · intro h1
    unfold updateMatch
    rw [hs]
    dsimp only
    rw [if_pos h1]
  · intro h1 h2 h3
    unfold updateMatch
    rw [hs]
    dsimp only
    rw [if_neg (by simp [h1]), if_pos (by simp [h2, h3])]
  · intro h1 h2 h3
    unfold updateMatch
    rw [hs]
    dsimp only
    rw [if_neg (by simp [h1]), if_neg (by simp [h2, h3]), if_pos (by simp [h2, h3])]
  · intro h1 h2
    unfold updateMatch
    rw [hs]
    dsimp only
    cases hp : isActiveState (some p) <;> cases hq : isActiveState (some s)
    · rw [hp, hq] at h2; exact absurd rfl h2
    · rw [if_neg (by simp [h1]), if_neg (by simp [hp, hq]), if_neg (by simp [hp, hq])]
    · rw [if_neg (by simp [h1]), if_neg (by simp [hp, hq]), if_neg (by simp [hp, hq])]
    · rw [hp, hq] at h2; exact absurd rfl h2

theorem updateMatch_four_cases_witness :
    updateMatch (mkMatcher [poseL]) (some poseL) 0 =
      (true, { mkMatcher [poseL] with
        confidenceScore := min 1 ((mkMatcher [poseL]).confidenceScore + CONFIDENCE_MATCH)
        lastMatchFrame := some 0
        isActive := true }) :=
  (updateMatch_four_cases (mkMatcher [poseL]) poseL poseL 0 (by decide)).1 (by decide)

/-! ## Claim C2: the confidence score stays inside the unit interval -/

lemma updateMatch_conf_bounds (m : SequenceMatcher) (p : Option PoseState) (f : Int)
    (h0 : 0 ≤ m.confidenceScore) (h1 : m.confidenceScore ≤ 1) :
    0 ≤ (updateMatch m p f).2.confidenceScore ∧
    (updateMatch m p f).2.confidenceScore ≤ 1 := by
  unfold updateMatch
  dsimp only
  split_ifs <;> dsimp only <;> constructor
  · exact le_min (by norm_num) (by unfold CONFIDENCE_MATCH; linarith [h0])
  · exact min_le_left 1 _
  · exact le_max_left 0 _
  · exact max_le (by norm_num) (by unfold CONFIDENCE_DECAY_IDLE; linarith [h1])
  · exact le_max_left 0 _
  · exact max_le (by norm_num) (by unfold CONFIDENCE_DECAY_ACTIVE; linarith [h1])
  · exact le_max_left 0 _
  · exact max_le (by norm_num) (by unfold CONFIDENCE_DECAY_MIXED; linarith [h1])

lemma runUpdates_conf_bounds (inputs : List (Option PoseState × Int)) :
    ∀ m : SequenceMatcher, 0 ≤ m.confidenceScore → m.confidenceScore ≤ 1 →
      0 ≤ (runUpdates m inputs).confidenceScore ∧
      (runUpdates m inputs).confidenceScore ≤ 1 := by
  induction inputs with
  | nil => exact fun m h0 h1 => ⟨h0, h1⟩
  | cons pf rest ih =>
      intro m h0 h1
      obtain ⟨p, f⟩ := pf
      obtain ⟨g0, g1⟩ := updateMatch_conf_bounds m p f h0 h1
      exact ih (updateMatch m p f).2 g0 g1

/-- C2: starting from the freshly constructed matcher, or from any reset
matcher, the confidence score remains in `[0, 1]` after any finite list of
`updateMatch` calls with arbitrary (possibly null) pose inputs and
arbitrary frame numbers. -/
theorem confidence_always_in_unit_interval (seq : List PoseState)
    (m0 : SequenceMatcher) (inputs : List (Option PoseState × Int)) :
    (0 ≤ (runUpdates (mkMatcher seq) inputs).confidenceScore ∧
      (runUpdates (mkMatcher seq) inputs).confidenceScore ≤ 1) ∧
    (0 ≤ (runUpdates (reset m0) inputs).confidenceScore ∧
      (runUpdates (reset m0) inputs).confidenceScore ≤ 1) :=
  ⟨runUpdates_conf_bounds inputs (mkMatcher seq) (by norm_num [mkMatcher]) (by norm_num [mkMatcher]),
   runUpdates_conf_bounds inputs (reset m0) (by norm_num [reset]) (by norm_num [reset])⟩

/-! ## Claim C3: findBestStartingPosition returns the least matching
active index -/

lemma findFrom_eq_some_iff (q : Option PoseState) :
    ∀ (l : List PoseState) (i : Nat), findFrom q l = some i ↔
      ((∃ s, l[i]? = some s ∧ (isActiveState (some s) && statesEqual q (some s)) = true) ∧
       ∀ j, j < i → ∀ s, l[j]? = some s →
         (isActiveState (some s) && statesEqual q (some s)) = false) := by
  intro l
  induction l with
  | nil => intro i; simp [findFrom]
  | cons s0 rest ih =>
      intro i
      by_cases hp : (isActiveState (some s0) && statesEqual q (some s0)) = true
      · rw [findFrom, if_pos hp]
        cases i with
        | zero =>
            constructor
            · intro _
              refine ⟨⟨s0, by simp, hp⟩, ?_⟩
              intro j hj
              exact absurd hj (Nat.not_lt_zero j)
            · intro _
              rfl
        | succ k =>
            constructor
            · intro h
              exact absurd (Option.some.inj h) (by omega)
            · rintro ⟨-, hall⟩
              have h0 := hall 0 (Nat.succ_pos k) s0 (by simp)
              rw [hp] at h0
              exact absurd h0 (by simp)
      · rw [findFrom, if_neg hp]
        have hp' : (isActiveState (some s0) && statesEqual q (some s0)) = false :=
          Bool.eq_false_iff.mpr hp
        cases i with
        | zero =>
            constructor
            · intro h
              cases hf : findFrom q rest with
              | none => rw [hf] at h; exact absurd h (by simp)
              | some k => rw [hf] at h; exact absurd h (by simp)
            · rintro ⟨⟨s, hs, hgood⟩, -⟩
              rw [List.getElem?_cons_zero] at hs
              rw [← Option.some.inj hs] at hgood
              rw [hgood] at hp'
              exact absurd hp' (by simp)
        | succ k =>
            have hmap : (findFrom q rest).map (fun n => n + 1) = some (k + 1) ↔
                findFrom q rest = some k := by
              cases hf : findFrom q rest with
              | none => simp
              | some j =>
                  simp only [Option.map_some', Option.some.injEq]
                  omega
            rw [hmap, ih k]
            constructor
            · rintro ⟨hex, hall⟩
              constructor
              · obtain ⟨s, hs, hgood⟩ := hex
                exact ⟨s, by rw [List.getElem?_cons_succ]; exact hs, hgood⟩
              · intro j hj s hs
                cases j with
                | zero =>
                    rw [List.getElem?_cons_zero] at hs
                    rw [← Option.some.inj hs]
                    exact hp'
                | succ j' =>
                    rw [List.getElem?_cons_succ] at hs
                    exact hall j' (by omega) s hs
            · rintro ⟨hex, hall⟩
              constructor
              · obtain ⟨s, hs, hgood⟩ := hex
                rw [List.getElem?_cons_succ] at hs
                exact ⟨s, hs, hgood⟩
              · intro j hj s hs
                exact hall (j + 1) (by omega) s
                  (by rw [List.getElem?_cons_succ]; exact hs)

/-- C3: for a non-null player state, `findBestStartingPosition` returns
`none` on an idle pose; on an active pose it returns exactly the least
index whose reference frame is active and structurally equal to the
player state, and `none` when no index qualifies. -/
theorem findBestStartingPosition_characterization (m : SequenceMatcher) (p : PoseState) :
    (isActiveState (some p) = false → findBestStartingPosition m (some p) = none) ∧
    (∀ i, findBestStartingPosition m (some p) = some i ↔
      (isActiveState (some p) = true ∧
       (∃ s, m.sequence[i]? = some s ∧ isActiveState (some s) = true ∧
         statesEqual (some p) (some s) = true) ∧
       ∀ j, j < i → ∀ s, m.sequence[j]? = some s →
         ¬(isActiveState (some s) = true ∧ statesEqual (some p) (some s) = true))) ∧
    ((∀ (i : Nat) (s : PoseState), m.sequence[i]? = some s →
        ¬(isActiveState (some s) = true ∧ statesEqual (some p) (some s) = true)) →
      findBestStartingPosition m (some p) = none) := by
  refine ⟨?_, ?_, ?_⟩
  · intro h
    unfold findBestStartingPosition
    rw [if_pos (by rw [h]; rfl)]
  · intro i
    cases hA : isActiveState (some p) with
    | false =>
        unfold findBestStartingPosition
        rw [if_pos (by rw [hA]; rfl)]
        simp
    | true =>
        unfold findBestStartingPosition
        rw [if_neg (by rw [hA]; simp)]
        constructor
        · intro h
          obtain ⟨⟨s, hs, hgood⟩, hall⟩ := (findFrom_eq_some_iff (some p) m.sequence i).mp h
          rw [Bool.and_eq_true] at hgood
          refine ⟨rfl, ⟨s, hs, hgood.1, hgood.2⟩, ?_⟩
          intro j hj s' hs' hcon
          have hfalse := hall j hj s' hs'
          rw [hcon.1, hcon.2] at hfalse
          exact absurd hfalse (by simp)
        · rintro ⟨-, ⟨s, hs, h1, h2⟩, hall⟩
          refine (findFrom_eq_some_iff (some p) m.sequence i).mpr
            ⟨⟨s, hs, by rw [h1, h2]; rfl⟩, ?_⟩
          intro j hj s' hs'
          by_contra hne
          have hgood : (isActiveState (some s') && statesEqual (some p) (some s')) = true :=
            Bool.eq_false_iff.not_left.mp hne
          rw [Bool.and_eq_true] at hgood
          exact hall j hj s' hs' ⟨hgood.1, hgood.2⟩
  · intro hnone
    cases hA : isActiveState (some p) with
    | false =>
        unfold findBestStartingPosition
        rw [if_pos (by rw [hA]; rfl)]
    | true =>
        unfold findBestStartingPosition
        rw [if_neg (by rw [hA]; simp)]
        cases hf : findFrom (some p) m.sequence with
        | none => rfl
        | some i =>
            exfalso
            obtain ⟨⟨s, hs, hgood⟩, -⟩ := (findFrom_eq_some_iff (some p) m.sequence i).mp hf
            rw [Bool.and_eq_true] at hgood
            exact hnone i s hs ⟨hgood.1, hgood.2⟩

theorem findBestStartingPosition_characterization_witness :
    findBestStartingPosition (mkMatcher [poseL]) (some poseIdle) = none :=
  (findBestStartingPosition_characterization (mkMatcher [poseL]) poseIdle).1 (by decide)

/-! ## Claim C4: feeding a matcher its own reference sequence -/

lemma rewardIter_succ_right : ∀ (n : Nat) (c : ℚ),
    rewardIter (n + 1) c = min 1 (rewardIter n c + CONFIDENCE_MATCH) := by
  intro n
  induction n with
  | zero => intro c; rfl
  | succ n ih =>
      intro c
      show rewardIter (n + 1) (min 1 (c + CONFIDENCE_MATCH)) = _
      rw [ih]
      rfl

lemma rewardIter_closed : ∀ n : Nat, 1 ≤ n →
    rewardIter n 0 = min 1 ((n : ℚ) * CONFIDENCE_MATCH) := by
  intro n
  induction n with
  | zero => intro h; exact absurd h (by omega)
  | succ n ih =>
      intro _
      cases Nat.eq_zero_or_pos n with
      | inl h0 =>
          subst h0
          norm_num [rewardIter, CONFIDENCE_MATCH]
      | inr hpos =>
          rw [rewardIter_succ_right, ih hpos]
          push_cast
          unfold CONFIDENCE_MATCH
          rcases le_total 1 ((n : ℚ) * (1/4)) with hge | hle
          · rw [min_eq_left hge]
            rw [min_eq_left (by norm_num : (1:ℚ) ≤ 1 + 1/4)]
            rw [min_eq_left (by linarith : (1:ℚ) ≤ ((n : ℚ) + 1) * (1/4))]
          · rw [min_eq_right hle]
            congr 1
            ring

lemma runMatcher_append (fc : Int) (a b : List (Option PoseState)) :
    ∀ m, runMatcher fc m (a ++ b) = runMatcher fc (runMatcher fc m a) b := by
  induction a with
  | nil => intro m; rfl
  | cons p rest ih =>
      intro m
      show runMatcher fc (stepMatcher m p fc) (rest ++ b) = _
      exact ih (stepMatcher m p fc)

lemma stepMatcher_self (m : SequenceMatcher) (s : PoseState) (fc : Int)
    (hs : m.sequence[m.matchPosition]? = some s) :
    stepMatcher m (some s) fc =
      advancePosition { m with
        confidenceScore := min 1 (m.confidenceScore + CONFIDENCE_MATCH)
        lastMatchFrame := some fc
        isActive := true } := by
  unfold stepMatcher updateMatch
  dsimp only
  rw [hs, if_pos (statesEqual_refl s)]
  rfl

lemma advancePosition_no_wrap (m : SequenceMatcher)
    (h : m.matchPosition + 1 < m.sequence.length) :
    advancePosition m = { m with matchPosition := m.matchPosition + 1 } := by
  unfold advancePosition
  dsimp only
  rw [if_neg (by omega)]

lemma advancePosition_wrap (m : SequenceMatcher)
    (h : m.matchPosition + 1 ≥ m.sequence.length) :
    advancePosition m =
      { m with matchPosition := 0, cyclesCompleted := m.cyclesCompleted + 1 } := by
  unfold advancePosition
  dsimp only
  rw [if_pos h]

lemma feed_take_invariant (seq : List PoseState) (fc : Int) :
    ∀ k, k < seq.length →
      (runMatcher fc (mkMatcher seq) ((seq.take k).map some)).sequence = seq ∧
      (runMatcher fc (mkMatcher seq) ((seq.take k).map some)).matchPosition = k ∧
      (runMatcher fc (mkMatcher seq) ((seq.take k).map some)).cyclesCompleted = 0 ∧
      (runMatcher fc (mkMatcher seq) ((seq.take k).map some)).confidenceScore =
        rewardIter k 0 := by
  intro k
  induction k with
  | zero => intro _; exact ⟨rfl, rfl, rfl, rfl⟩
  | succ k ih =>
      intro hk
      have hk' : k < seq.length := by omega
      obtain ⟨hseq, hpos, hcyc, hconf⟩ := ih hk'
      have hget : seq[k]? = some seq[k] := List.getElem?_eq_getElem hk'
      have htake : seq.take (k + 1) = seq.take k ++ [seq[k]] := by
        rw [List.take_succ, hget]
        rfl
      rw [htake, List.map_append, runMatcher_append]
      have hsM : (runMatcher fc (mkMatcher seq) ((seq.take k).map some)).sequence[
          (runMatcher fc (mkMatcher seq) ((seq.take k).map some)).matchPosition]? =
          some seq[k] := by
        rw [hseq, hpos]
        exact hget
      have hrun1 : runMatcher fc (runMatcher fc (mkMatcher seq) ((seq.take k).map some))
          ([seq[k]].map some) =
          stepMatcher (runMatcher fc (mkMatcher seq) ((seq.take k).map some))
            (some seq[k]) fc := rfl
      rw [hrun1, stepMatcher_self _ _ _ hsM, advancePosition_no_wrap _ (by
        show (runMatcher fc (mkMatcher seq) ((seq.take k).map some)).matchPosition + 1 <
          (runMatcher fc (mkMatcher seq) ((seq.take k).map some)).sequence.length
        rw [hseq, hpos]
        omega)]
      refine ⟨hseq, ?_, hcyc, ?_⟩
      · show (runMatcher fc (mkMatcher seq) ((seq.take k).map some)).matchPosition + 1 = k + 1
        rw [hpos]
      · show min 1 ((runMatcher fc (mkMatcher seq) ((seq.take k).map some)).confidenceScore +
          CONFIDENCE_MATCH) = rewardIter (k + 1) 0
        rw [hconf, rewardIter_succ_right]

/-- C4: a matcher in its reset state fed its own reference sequence frame
by frame (update, then advance on acceptance) accepts every frame, reaches
`cyclesCompleted = 1` exactly after the N-th update (every proper prefix
leaves `cyclesCompleted = 0`), ends with `matchPosition = 0`, and its
confidence equals `min 1 (N * CONFIDENCE_MATCH)`. -/
theorem feeding_reference_completes_one_cycle (seq : List PoseState) (fc : Int)
    (hN : 0 < seq.length) :
    (runMatcher fc (mkMatcher seq) (seq.map some)).cyclesCompleted = 1 ∧
    (runMatcher fc (mkMatcher seq) (seq.map some)).matchPosition = 0 ∧
    (runMatcher fc (mkMatcher seq) (seq.map some)).confidenceScore =
      min 1 ((seq.length : ℚ) * CONFIDENCE_MATCH) ∧
    ∀ k, k < seq.length →
      (runMatcher fc (mkMatcher seq) ((seq.take k).map some)).cyclesCompleted = 0 := by
  set k := seq.length - 1 with hkdef
  have hk : k < seq.length := by omega
  have hlen : seq.length = k + 1 := by omega
  obtain ⟨hseq, hpos, hcyc, hconf⟩ := feed_take_invariant seq fc k hk
  have hget : seq[k]? = some seq[k] := List.getElem?_eq_getElem hk
  have hfull : seq = seq.take k ++ [seq[k]] := by
    have h1 : seq.take (k + 1) = seq.take k ++ seq[k]?.toList := List.take_succ
    rw [hget] at h1
    rw [← hlen, List.take_length] at h1
    exact h1
  have hsplit : seq.map some = (seq.take k).map some ++ [some seq[k]] := by
    conv_lhs => rw [hfull]
    rw [List.map_append]
    rfl
  rw [hsplit, runMatcher_append]
  have hsM : (runMatcher fc (mkMatcher seq) ((seq.take k).map some)).sequence[
      (runMatcher fc (mkMatcher seq) ((seq.take k).map some)).matchPosition]? =
      some seq[k] := by
    rw [hseq, hpos]
    exact hget
  have hrun1 : runMatcher fc (runMatcher fc (mkMatcher seq) ((seq.take k).map some))
      ([some seq[k]]) =
      stepMatcher (runMatcher fc (mkMatcher seq) ((seq.take k).map some))
        (some seq[k]) fc := rfl
  rw [hrun1, stepMatcher_self _ _ _ hsM, advancePosition_wrap _ (by
    show (runMatcher fc (mkMatcher seq) ((seq.take k).map some)).matchPosition + 1 ≥
      (runMatcher fc (mkMatcher seq) ((seq.take k).map some)).sequence.length
    rw [hseq, hpos]
    omega)]
  refine ⟨?_, rfl, ?_, ?_⟩
  · show (runMatcher fc (mkMatcher seq) ((seq.take k).map some)).cyclesCompleted + 1 = 1
    rw [hcyc]
  · show min 1 ((runMatcher fc (mkMatcher seq) ((seq.take k).map some)).confidenceScore +
      CONFIDENCE_MATCH) = min 1 ((seq.length : ℚ) * CONFIDENCE_MATCH)
    rw [hconf, ← rewardIter_succ_right, rewardIter_closed (k + 1) (by omega), ← hlen]
  · intro j hj
    exact (feed_take_invariant seq fc j hj).2.2.1

theorem feeding_reference_completes_one_cycle_witness :
    (runMatcher 0 (mkMatcher [poseL, poseIdle]) ([poseL, poseIdle].map some)).cyclesCompleted
      = 1 :=
  (feeding_reference_completes_one_cycle [poseL, poseIdle] 0 (by decide)).1

/-! ## Claim C5: a candidate is confirmed only with a completed cycle -/

lemma stepMatcher_no_wrap (m : SequenceMatcher) (p : Option PoseState) (f : Int)
    (h : m.matchPosition + 1 < m.sequence.length) :
    (stepMatcher m p f).cyclesCompleted = m.cyclesCompleted ∧
    (stepMatcher m p f).matchPosition ≤ m.matchPosition + 1 := by
  unfold stepMatcher
  dsimp only
  split_ifs
  · rw [advancePosition_no_wrap _ (by
      rw [updateMatch_matchPosition, updateMatch_sequence]; exact h)]
    refine ⟨?_, ?_⟩
    · show (updateMatch m p f).2.cyclesCompleted = m.cyclesCompleted
      exact updateMatch_cyclesCompleted m p f
    · show (updateMatch m p f).2.matchPosition + 1 ≤ m.matchPosition + 1
      rw [updateMatch_matchPosition]
  · exact ⟨updateMatch_cyclesCompleted m p f, by rw [updateMatch_matchPosition]; omega⟩

lemma runMatcher_no_wrap (fc : Int) :
    ∀ (inputs : List (Option PoseState)) (m : SequenceMatcher),
      m.matchPosition + inputs.length < m.sequence.length →
      (runMatcher fc m inputs).cyclesCompleted = m.cyclesCompleted := by
  intro inputs
  induction inputs with
  | nil => intro m _; rfl
  | cons p rest ih =>
      intro m h
      rw [List.length_cons] at h
      have hstep := stepMatcher_no_wrap m p fc (by omega)
      show (runMatcher fc (stepMatcher m p fc) rest).cyclesCompleted = m.cyclesCompleted
      rw [ih (stepMatcher m p fc) (by rw [stepMatcher_sequence]; omega)]
      exact hstep.1

lemma buildTransition_matchers (g : ArbState) (ms : List SequenceMatcher)
    (be : Option Nat) (bq : ℚ) : (buildTransition g ms be bq).matchers = ms := by
  unfold buildTransition
  cases be with
  | none => rfl
  | some b =>
      dsimp only
      split_ifs <;> rfl

lemma buildTransition_confirmed_inv (g : ArbState) (ms : List SequenceMatcher)
    (be : Option Nat) (bq : ℚ) (e : Nat)
    (h : (buildTransition g ms be bq).confirmedCandidate = some e) :
    g.confirmedCandidate = some e ∨
    (be = some e ∧ 0 < (ms.getD e defaultMatcher).cyclesCompleted) := by
  unfold buildTransition at h
  cases be with
  | none => left; exact h
  | some b =>
      dsimp only at h
      split_ifs at h with h1 h2
      · right
        rw [Option.some.inj h] at h2 ⊢
        exact ⟨rfl, h2⟩
      · left; exact h
      · left; exact h

lemma checkPlayerMatches_guard (g : ArbState) (hist : Nat) (p : PoseState) (fc : Int)
    (h : hist < 5) : checkPlayerMatches g hist p fc = g := by
  unfold checkPlayerMatches
  rw [if_pos h]

lemma checkPlayerMatches_confirmed (g : ArbState) (hist : Nat) (p : PoseState) (fc : Int)
    (e : Nat) (h5 : ¬ hist < 5) (hc : g.confirmedCandidate = some e) :
    checkPlayerMatches g hist p fc = confirmedTick g e p fc := by
  unfold checkPlayerMatches
  rw [if_neg h5, hc]

lemma checkPlayerMatches_current (g : ArbState) (hist : Nat) (p : PoseState) (fc : Int)
    (c : Nat) (h5 : ¬ hist < 5) (hc : g.confirmedCandidate = none)
    (hcur : g.currentCandidate = some c) :
    checkPlayerMatches g hist p fc =
      buildTransition g
        (updAt c (fun _ => stepMatcher (g.matchers.getD c defaultMatcher) (some p) fc)
          g.matchers)
        (some c)
        (getMatchQuality (stepMatcher (g.matchers.getD c defaultMatcher) (some p) fc)) := by
  unfold checkPlayerMatches
  rw [if_neg h5, hc, hcur]

lemma checkPlayerMatches_scan (g : ArbState) (hist : Nat) (p : PoseState) (fc : Int)
    (h5 : ¬ hist < 5) (hc : g.confirmedCandidate = none)
    (hcur : g.currentCandidate = none) :
    checkPlayerMatches g hist p fc =
      buildTransition g (scanGo p fc g.matchers 0 none 0).2.2
        (scanGo p fc g.matchers 0 none 0).1 (scanGo p fc g.matchers 0 none 0).2.1 := by
  unfold checkPlayerMatches
  rw [if_neg h5, hc, hcur]

/-- Explicit description of the three outcomes of `confirmedTick`. -/
lemma confirmedTick_cases (g : ArbState) (e : Nat) (p : PoseState) (fc : Int) :
    (getMatchQuality (stepMatcher (g.matchers.getD e defaultMatcher) (some p) fc) >
        QUALITY_THRESHOLD_CONFIRM ∧
      confirmedTick g e p fc =
        { g with
          matchers := updAt e
            (fun _ => stepMatcher (g.matchers.getD e defaultMatcher) (some p) fc) g.matchers
          graceFrames := 0 }) ∨
    (¬ getMatchQuality (stepMatcher (g.matchers.getD e defaultMatcher) (some p) fc) >
        QUALITY_THRESHOLD_CONFIRM ∧
      g.graceFrames + 1 < GRACE_PERIOD ∧
      confirmedTick g e p fc =
        { g with
          matchers := updAt e
            (fun _ => stepMatcher (g.matchers.getD e defaultMatcher) (some p) fc) g.matchers
          graceFrames := g.graceFrames + 1 }) ∨
    (¬ getMatchQuality (stepMatcher (g.matchers.getD e defaultMatcher) (some p) fc) >
        QUALITY_THRESHOLD_CONFIRM ∧
      ¬ g.graceFrames + 1 < GRACE_PERIOD ∧
      confirmedTick g e p fc =
        { matchers := (updAt e
            (fun _ => stepMatcher (g.matchers.getD e defaultMatcher) (some p) fc)
            g.matchers).map reset
          currentCandidate := none
          confirmedCandidate := none
          graceFrames := g.graceFrames + 1 }) := by
  unfold confirmedTick
  dsimp only
  split_ifs with h1 h2
  · exact Or.inl ⟨h1.2, rfl⟩
  · refine Or.inr (Or.inl ⟨?_, h2, rfl⟩)
    intro hq
    exact h1 ⟨rfl, hq⟩
  · refine Or.inr (Or.inr ⟨?_, h2, rfl⟩)
    intro hq
    exact h1 ⟨rfl, hq⟩

/-- C5 (amended): at any tick, the arbitrator's resulting
`confirmedCandidate` is either the one already confirmed before the tick,
or an enemy whose (post-update) matcher has `cyclesCompleted ≥ 1` at the
moment of confirmation; and a matcher whose tracking began at
`matchPosition = 0` (the reset state) and that has gone through fewer
update/advance steps than the length of its reference sequence always
still has `cyclesCompleted = 0`, whatever was fed to it.  (The original
claim's unrestricted "tracked for N-1 frames is never confirmed" is
false: the scan seeds a fresh matcher at the index found by
`findBestStartingPosition`, which can wrap immediately — see the
counterexample below.) -/
theorem confirmation_requires_full_cycle (g : ArbState) (hist : Nat) (p : PoseState)
    (fc : Int) :
    (∀ e, (checkPlayerMatches g hist p fc).confirmedCandidate = some e →
      g.confirmedCandidate = some e ∨
      1 ≤ ((checkPlayerMatches g hist p fc).matchers.getD e defaultMatcher).cyclesCompleted) ∧
    (∀ (seq : List PoseState) (inputs : List (Option PoseState)),
      inputs.length < seq.length →
      (runMatcher fc (mkMatcher seq) inputs).cyclesCompleted = 0) := by
  constructor
  · intro e h
    by_cases hh : hist < 5
    · rw [checkPlayerMatches_guard g hist p fc hh] at h
      left
      exact h
    · cases hc : g.confirmedCandidate with
      | some e0 =>
          rw [checkPlayerMatches_confirmed g hist p fc e0 hh hc] at h
          rcases confirmedTick_cases g e0 p fc with ⟨-, heq⟩ | ⟨-, -, heq⟩ | ⟨-, -, heq⟩ <;>
            rw [heq] at h
          · left; rw [← hc]; exact h
          · left; rw [← hc]; exact h
          · exact absurd h (by simp)
      | none =>
          cases hcur : g.currentCandidate with
          | some c =>
              rw [checkPlayerMatches_current g hist p fc c hh hc hcur] at h ⊢
              rcases buildTransition_confirmed_inv _ _ _ _ e h with hl | ⟨-, hcy⟩
              · rw [hc] at hl
                exact absurd hl (by simp)
              · right
                rw [buildTransition_matchers]
                exact hcy
          | none =>
              rw [checkPlayerMatches_scan g hist p fc hh hc hcur] at h ⊢
              rcases buildTransition_confirmed_inv _ _ _ _ e h with hl | ⟨-, hcy⟩
              · rw [hc] at hl
                exact absurd hl (by simp)
              · right
                rw [buildTransition_matchers]
                exact hcy
  · intro seq inputs hlen
    exact runMatcher_no_wrap fc inputs (mkMatcher seq) (by simp [mkMatcher]; omega)

theorem confirmation_requires_full_cycle_witness :
    (runMatcher 0 (mkMatcher [poseL]) []).cyclesCompleted = 0 :=
  (confirmation_requires_full_cycle ceState 5 poseL 0).2 [poseL] [] (by decide)

/-- C5 counterexample: the arbitrator seeds a fresh matcher at the index
returned by `findBestStartingPosition`, not at 0, so a hit at the last
index wraps on its very first accepted update.  With the length-2
reference sequence `[poseIdle, poseL]` and an untracked player holding
`poseL`, a single tick — one tracked frame, that is N - 1 = 1 — already
confirms the enemy, refuting the claim's "a matcher that has been tracked
for only N-1 frames of a length-N reference sequence is never
confirmed". -/
theorem early_confirmation_counterexample :
    (⟨[mkMatcher [poseIdle, poseL]], none, none, 0⟩ : ArbState).confirmedCandidate =
      none ∧
    (⟨[mkMatcher [poseIdle, poseL]], none, none, 0⟩ : ArbState).currentCandidate = none ∧
    (mkMatcher [poseIdle, poseL]).sequence.length = 2 ∧
    (checkPlayerMatches (⟨[mkMatcher [poseIdle, poseL]], none, none, 0⟩ : ArbState)
      120 poseL 0).confirmedCandidate = some 0 := by
  refine ⟨rfl, rfl, rfl, ?_⟩
  norm_num [checkPlayerMatches, scanGo, findBestStartingPosition, findFrom,
    buildTransition, stepMatcher, updateMatch, statesEqual, isActiveState,
    getMatchQuality, updAt, advancePosition, reset, poseIdle, poseL, defaultMatcher,
    mkMatcher, QUALITY_THRESHOLD_BUILD, CONFIDENCE_MATCH]

/-! ## Claim C6: grace-period behaviour of a confirmed candidate -/

lemma updateMatch_conf_mismatch (m : SequenceMatcher) (p : Option PoseState) (f : Int)
    (hne : statesEqual p m.sequence[m.matchPosition]? = false) :
    (updateMatch m p f).2.confidenceScore ≤ max 0 m.confidenceScore := by
  unfold updateMatch
  dsimp only
  rw [hne]
  rw [if_neg (by simp)]
  split_ifs <;> dsimp only
  · exact max_le (le_max_left 0 _)
      (le_trans (sub_le_self _ (by norm_num [CONFIDENCE_DECAY_IDLE])) (le_max_right 0 _))
  · exact max_le (le_max_left 0 _)
      (le_trans (sub_le_self _ (by norm_num [CONFIDENCE_DECAY_ACTIVE])) (le_max_right 0 _))
  · exact max_le (le_max_left 0 _)
      (le_trans (sub_le_self _ (by norm_num [CONFIDENCE_DECAY_MIXED])) (le_max_right 0 _))

lemma stepMatcher_conf_mismatch (m : SequenceMatcher) (p : PoseState) (f : Int)
    (hne : statesEqual (some p) m.sequence[m.matchPosition]? = false)
    (hc : m.confidenceScore ≤ QUALITY_THRESHOLD_CONFIRM) :
    (stepMatcher m (some p) f).confidenceScore ≤ QUALITY_THRESHOLD_CONFIRM := by
  have hup : (updateMatch m (some p) f).2.confidenceScore ≤ QUALITY_THRESHOLD_CONFIRM :=
    le_trans (updateMatch_conf_mismatch m (some p) f hne)
      (max_le (by norm_num [QUALITY_THRESHOLD_CONFIRM]) hc)
  unfold stepMatcher
  dsimp only
  split_ifs
  · rw [advancePosition_confidenceScore]
    exact hup
  · exact hup

lemma confirmed_persists (hist : Nat) (fc : Int) :
    ∀ (ps : List PoseState) (g : ArbState) (e : Nat),
      g.confirmedCandidate = some e →
      g.graceFrames + ps.length < GRACE_PERIOD →
      (runTicks hist fc g ps).confirmedCandidate = some e ∧
      (runTicks hist fc g ps).graceFrames ≤ g.graceFrames + ps.length := by
  intro ps
  induction ps with
  | nil => intro g e hc _; exact ⟨hc, Nat.le_add_right _ _⟩
  | cons p rest ih =>
      intro g e hc hb
      rw [List.length_cons] at hb
      show (runTicks hist fc (checkPlayerMatches g hist p fc) rest).confirmedCandidate =
          some e ∧
        (runTicks hist fc (checkPlayerMatches g hist p fc) rest).graceFrames ≤
          g.graceFrames + (rest.length + 1)
      by_cases hh : hist < 5
      · rw [checkPlayerMatches_guard g hist p fc hh]
        obtain ⟨h1, h2⟩ := ih g e hc (by omega)
        exact ⟨h1, by omega⟩
      · rw [checkPlayerMatches_confirmed g hist p fc e hh hc]
        rcases confirmedTick_cases g e p fc with ⟨-, heq⟩ | ⟨-, hglt, heq⟩ | ⟨-, hge, heq⟩
        · rw [heq]
          obtain ⟨h1, h2⟩ := ih
            { g with
              matchers := updAt e
                (fun _ => stepMatcher (g.matchers.getD e defaultMatcher) (some p) fc)
                g.matchers
              graceFrames := 0 } e hc
            (by show 0 + rest.length < GRACE_PERIOD; omega)
          refine ⟨h1, le_trans h2 ?_⟩
          show 0 + rest.length ≤ g.graceFrames + (rest.length + 1)
          omega
        · rw [heq]
          obtain ⟨h1, h2⟩ := ih
            { g with
              matchers := updAt e
                (fun _ => stepMatcher (g.matchers.getD e defaultMatcher) (some p) fc)
                g.matchers
              graceFrames := g.graceFrames + 1 } e hc
            (by show g.graceFrames + 1 + rest.length < GRACE_PERIOD; omega)
          refine ⟨h1, le_trans h2 ?_⟩
          show g.graceFrames + 1 + rest.length ≤ g.graceFrames + (rest.length + 1)
          omega
        · exact absurd (by omega : g.graceFrames + 1 < GRACE_PERIOD) hge

lemma grace_countdown (hist : Nat) (fc : Int) (h5 : ¬ hist < 5) :
    ∀ (ps : List PoseState) (g : ArbState) (e : Nat),
      g.confirmedCandidate = some e →
      e < g.matchers.length →
      (g.matchers.getD e defaultMatcher).confidenceScore ≤ QUALITY_THRESHOLD_CONFIRM →
      mismatchRun fc (g.matchers.getD e defaultMatcher) ps = true →
      g.graceFrames + ps.length = GRACE_PERIOD →
      1 ≤ ps.length →
      (runTicks hist fc g ps).confirmedCandidate = none ∧
      (runTicks hist fc g ps).currentCandidate = none ∧
      (runTicks hist fc g ps).matchers = g.matchers.map reset ∧
      (runTicks hist fc g ps).graceFrames = GRACE_PERIOD := by
  intro ps
  induction ps with
  | nil => intro g e _ _ _ _ _ hlen; exact absurd hlen (by simp)
  | cons p rest ih =>
      intro g e hc he hq hm hsum hlen
      rw [List.length_cons] at hsum
      rw [mismatchRun, Bool.and_eq_true] at hm
      obtain ⟨hm1, hm2⟩ := hm
      have hne : statesEqual (some p)
          ((g.matchers.getD e defaultMatcher).sequence[
            (g.matchers.getD e defaultMatcher).matchPosition]?) = false := by
        simpa using hm1
      have hq' : (stepMatcher (g.matchers.getD e defaultMatcher) (some p) fc).confidenceScore ≤
          QUALITY_THRESHOLD_CONFIRM :=
        stepMatcher_conf_mismatch _ _ _ hne hq
      have hresall : ∀ d, reset (stepMatcher (g.matchers.getD e defaultMatcher) (some p) fc) =
          reset (g.matchers.getD e d) := by
        intro d
        rw [reset_stepMatcher]
        congr 1
        rw [List.getD_eq_getElem?_getD, List.getD_eq_getElem?_getD,
          List.getElem?_eq_getElem he]
        rfl
      show (runTicks hist fc (checkPlayerMatches g hist p fc) rest).confirmedCandidate =
          none ∧
        (runTicks hist fc (checkPlayerMatches g hist p fc) rest).currentCandidate = none ∧
        (runTicks hist fc (checkPlayerMatches g hist p fc) rest).matchers =
          g.matchers.map reset ∧
        (runTicks hist fc (checkPlayerMatches g hist p fc) rest).graceFrames = GRACE_PERIOD
      rw [checkPlayerMatches_confirmed g hist p fc e h5 hc]
      rcases confirmedTick_cases g e p fc with ⟨hgt, -⟩ | ⟨-, hglt, heq⟩ | ⟨-, hge, heq⟩
      · exact absurd hgt (not_lt.mpr hq')
      · rcases Nat.eq_zero_or_pos rest.length with h0 | hpos
        · exact absurd hglt (by omega)
        · rw [heq]
          have hgd : (updAt e
              (fun _ => stepMatcher (g.matchers.getD e defaultMatcher) (some p) fc)
              g.matchers).getD e defaultMatcher =
              stepMatcher (g.matchers.getD e defaultMatcher) (some p) fc :=
            updAt_getD_self e _ g.matchers defaultMatcher he
          obtain ⟨h1, h2, h3, h4⟩ := ih
            { g with
              matchers := updAt e
                (fun _ => stepMatcher (g.matchers.getD e defaultMatcher) (some p) fc)
                g.matchers
              graceFrames := g.graceFrames + 1 } e hc
            (by show e < (updAt e _ g.matchers).length; rw [updAt_length]; exact he)
            (by show ((updAt e _ g.matchers).getD e defaultMatcher).confidenceScore ≤ _
                rw [hgd]; exact hq')
            (by show mismatchRun fc ((updAt e _ g.matchers).getD e defaultMatcher) rest = true
                rw [hgd]; exact hm2)
            (by show g.graceFrames + 1 + rest.length = GRACE_PERIOD; omega)
            hpos
          refine ⟨h1, h2, ?_, h4⟩
          rw [h3]
          show (updAt e _ g.matchers).map reset = g.matchers.map reset
          exact updAt_map_reset g.matchers e _ hresall
      · have h0 : rest.length = 0 := by omega
        rw [List.length_eq_zero] at h0
        subst h0
        rw [heq]
        refine ⟨rfl, rfl, ?_, ?_⟩
        · show (updAt e _ g.matchers).map reset = g.matchers.map reset
          exact updAt_map_reset g.matchers e _ hresall
        · show g.graceFrames + 1 = GRACE_PERIOD
          omega

/-- C6 (amended): from a freshly confirmed state (grace counter 0),
injecting `GRACE_PERIOD - 1` consecutive mismatching player frames never
clears the confirmed candidate; and — provided the confirmed matcher's
confidence is at most the confirm threshold when the injection starts —
injecting `GRACE_PERIOD` consecutive mismatching frames clears both the
confirmed and the current candidate and resets every matcher to its
initial tracking state. -/
theorem grace_period_behavior (g : ArbState) (e : Nat) (hist : Nat) (fc : Int)
    (ps : List PoseState)
    (hc : g.confirmedCandidate = some e)
    (he : e < g.matchers.length)
    (hg0 : g.graceFrames = 0)
    (hmis : mismatchRun fc (g.matchers.getD e defaultMatcher) ps = true)
    (hh : 5 ≤ hist)
    (hlen : ps.length = GRACE_PERIOD) :
    (runTicks hist fc g (ps.take (GRACE_PERIOD - 1))).confirmedCandidate = some e ∧
    ((g.matchers.getD e defaultMatcher).confidenceScore ≤ QUALITY_THRESHOLD_CONFIRM →
      (runTicks hist fc g ps).confirmedCandidate = none ∧
      (runTicks hist fc g ps).currentCandidate = none ∧
      (runTicks hist fc g ps).matchers = g.matchers.map reset) := by
  have hGP : GRACE_PERIOD = 60 := rfl
  constructor
  · refine (confirmed_persists hist fc (ps.take (GRACE_PERIOD - 1)) g e hc ?_).1
    rw [List.length_take]
    omega
  · intro hq
    obtain ⟨h1, h2, h3, -⟩ := grace_countdown hist fc (by omega) ps g e hc he hq hmis
      (by omega) (by omega)
    exact ⟨h1, h2, h3⟩

theorem grace_period_behavior_witness :
    (runTicks 120 0 loState ((List.replicate 60 poseR).take (GRACE_PERIOD - 1))
      ).confirmedCandidate = some 0 :=
  (grace_period_behavior loState 0 120 0 (List.replicate 60 poseR) rfl (by decide) rfl
    (by decide) (by decide) (by decide)).1

/-- C6 counterexample: a confirmed candidate at full confidence, fed
`GRACE_PERIOD` consecutive mismatching frames from a fresh grace counter,
is still confirmed afterwards (the early mismatches keep resetting the
grace counter because the decayed quality is still above the confirm
threshold), so the claimed unconditional "always clears" fails. -/
theorem grace_period_counterexample :
    ceState.confirmedCandidate = some 0 ∧
    ceState.graceFrames = 0 ∧
    0 < ceState.matchers.length ∧
    mismatchRun 0 (ceState.matchers.getD 0 defaultMatcher)
      (List.replicate GRACE_PERIOD poseR) = true ∧
    (List.replicate GRACE_PERIOD poseR).length = GRACE_PERIOD ∧
    (runTicks 120 0 ceState (List.replicate GRACE_PERIOD poseR)).confirmedCandidate =
      some 0 := by
  refine ⟨rfl, rfl, by decide, by decide, by decide, ?_⟩
  have h1 : checkPlayerMatches ceState 120 poseR 0 =
      ⟨[⟨[poseL], 0, 1, 3/4, some 0, false⟩], some 0, some 0, 0⟩ := by
    norm_num [checkPlayerMatches, confirmedTick, stepMatcher, updateMatch, statesEqual,
      isActiveState, getMatchQuality, updAt, advancePosition, ceState, ceMatcher, poseR,
      poseL, defaultMatcher, mkMatcher, QUALITY_THRESHOLD_CONFIRM, CONFIDENCE_DECAY_ACTIVE,
      GRACE_PERIOD, max_def]
  have h2 : checkPlayerMatches
      (⟨[⟨[poseL], 0, 1, 3/4, some 0, false⟩], some 0, some 0, 0⟩ : ArbState) 120 poseR 0 =
      ⟨[⟨[poseL], 0, 1, 1/2, some 0, false⟩], some 0, some 0, 0⟩ := by
    norm_num [checkPlayerMatches, confirmedTick, stepMatcher, updateMatch, statesEqual,
      isActiveState, getMatchQuality, updAt, advancePosition, poseR, poseL, defaultMatcher,
      mkMatcher, QUALITY_THRESHOLD_CONFIRM, CONFIDENCE_DECAY_ACTIVE, GRACE_PERIOD, max_def]
  have hrep : List.replicate GRACE_PERIOD poseR =
      poseR :: poseR :: List.replicate 58 poseR := rfl
  rw [hrep]
  show (runTicks 120 0 (checkPlayerMatches ceState 120 poseR 0)
    (poseR :: List.replicate 58 poseR)).confirmedCandidate = some 0
  rw [h1]
  show (runTicks 120 0 (checkPlayerMatches
    (⟨[⟨[poseL], 0, 1, 3/4, some 0, false⟩], some 0, some 0, 0⟩ : ArbState) 120 poseR 0)
    (List.replicate 58 poseR)).confirmedCandidate = some 0
  rw [h2]
  exact (confirmed_persists 120 0 (List.replicate 58 poseR)
    (⟨[⟨[poseL], 0, 1, 1/2, some 0, false⟩], some 0, some 0, 0⟩ : ArbState) 0 rfl
    (by simp [GRACE_PERIOD])).1

/-! ## Claim C10: fresh hits in the candidate scan -/

lemma getMatchQuality_eq (m : SequenceMatcher) :
    getMatchQuality m = m.confidenceScore := rfl

lemma getD_map (f : SequenceMatcher → SequenceMatcher) (l : List SequenceMatcher)
    (n : Nat) (h : n < l.length) :
    (l.map f).getD n defaultMatcher = f (l.getD n defaultMatcher) := by
  rw [List.getD_eq_getElem?_getD, List.getD_eq_getElem?_getD, List.getElem?_map,
    List.getElem?_eq_getElem h]
  rfl

lemma find_some_elim (m : SequenceMatcher) (p : PoseState) (pos : Nat)
    (h : findBestStartingPosition m (some p) = some pos) :
    ∃ s, m.sequence[pos]? = some s ∧ statesEqual (some p) (some s) = true := by
  unfold findBestStartingPosition at h
  cases hA : isActiveState (some p) with
  | false =>
      rw [if_pos (by rw [hA]; rfl)] at h
      exact absurd h (by simp)
  | true =>
      rw [if_neg (by rw [hA]; simp)] at h
      obtain ⟨⟨s, hs, hgood⟩, -⟩ := (findFrom_eq_some_iff (some p) m.sequence pos).mp h
      rw [Bool.and_eq_true] at hgood
      exact ⟨s, hs, hgood.2⟩

lemma updateMatch_perfect (m : SequenceMatcher) (p : Option PoseState) (f : Int)
    (h : statesEqual p m.sequence[m.matchPosition]? = true) :
    updateMatch m p f = (true, { m with
      confidenceScore := min 1 (m.confidenceScore + CONFIDENCE_MATCH)
      lastMatchFrame := some f
      isActive := true }) := by
  unfold updateMatch
  dsimp only
  rw [if_pos h]

lemma hit_step_conf (m : SequenceMatcher) (p : PoseState) (fc : Int) (pos : Nat)
    (h : findBestStartingPosition m (some p) = some pos) :
    (stepMatcher { reset m with matchPosition := pos } (some p) fc).confidenceScore =
      CONFIDENCE_MATCH := by
  obtain ⟨s, hs, heq⟩ := find_some_elim m p pos h
  have hupd := updateMatch_perfect { reset m with matchPosition := pos } (some p) fc
    (by
      have hs' : ({ reset m with matchPosition := pos } : SequenceMatcher).sequence[
          ({ reset m with matchPosition := pos } : SequenceMatcher).matchPosition]? =
          some s := hs
      rw [hs']
      exact heq)
  unfold stepMatcher
  rw [hupd]
  rw [if_pos rfl]
  rw [advancePosition_confidenceScore]
  show min 1 ((0 : ℚ) + CONFIDENCE_MATCH) = CONFIDENCE_MATCH
  norm_num [CONFIDENCE_MATCH]

lemma procMatcher_conf (p : PoseState) (fc : Int) (m : SequenceMatcher) (pos : Nat)
    (h : findBestStartingPosition m (some p) = some pos) :
    (procMatcher p fc m).confidenceScore = CONFIDENCE_MATCH := by
  unfold procMatcher
  simp only [h]
  exact hit_step_conf m p fc pos h

lemma scanGo_cons_none (p : PoseState) (fc : Int) (m : SequenceMatcher)
    (rest : List SequenceMatcher) (i : Nat) (be : Option Nat) (bq : ℚ)
    (hf : findBestStartingPosition m (some p) = none) :
    scanGo p fc (m :: rest) i be bq =
      ((scanGo p fc rest (i + 1) be bq).1, (scanGo p fc rest (i + 1) be bq).2.1,
        m :: (scanGo p fc rest (i + 1) be bq).2.2) := by
  simp only [scanGo, hf]

lemma scanGo_cons_some_gt (p : PoseState) (fc : Int) (m : SequenceMatcher)
    (rest : List SequenceMatcher) (i : Nat) (be : Option Nat) (bq : ℚ) (startPos : Nat)
    (hf : findBestStartingPosition m (some p) = some startPos)
    (hgt : getMatchQuality (stepMatcher { reset m with matchPosition := startPos }
      (some p) fc) > bq) :
    scanGo p fc (m :: rest) i be bq =
      ((scanGo p fc rest (i + 1) (some i)
          (getMatchQuality (stepMatcher { reset m with matchPosition := startPos }
            (some p) fc))).1,
        (scanGo p fc rest (i + 1) (some i)
          (getMatchQuality (stepMatcher { reset m with matchPosition := startPos }
            (some p) fc))).2.1,
        stepMatcher { reset m with matchPosition := startPos } (some p) fc ::
          (scanGo p fc rest (i + 1) (some i)
            (getMatchQuality (stepMatcher { reset m with matchPosition := startPos }
              (some p) fc))).2.2) := by
  simp only [scanGo, hf]
  rw [if_pos hgt]

lemma scanGo_cons_some_le (p : PoseState) (fc : Int) (m : SequenceMatcher)
    (rest : List SequenceMatcher) (i : Nat) (be : Option Nat) (bq : ℚ) (startPos : Nat)
    (hf : findBestStartingPosition m (some p) = some startPos)
    (hle : ¬ getMatchQuality (stepMatcher { reset m with matchPosition := startPos }
      (some p) fc) > bq) :
    scanGo p fc (m :: rest) i be bq =
      ((scanGo p fc rest (i + 1) be bq).1, (scanGo p fc rest (i + 1) be bq).2.1,
        stepMatcher { reset m with matchPosition := startPos } (some p) fc ::
          (scanGo p fc rest (i + 1) be bq).2.2) := by
  simp only [scanGo, hf]
  rw [if_neg hle]

lemma scanGo_matchers (p : PoseState) (fc : Int) :
    ∀ (ms : List SequenceMatcher) (i : Nat) (be : Option Nat) (bq : ℚ),
      (scanGo p fc ms i be bq).2.2 = ms.map (procMatcher p fc) := by
  intro ms
  induction ms with
  | nil => intro i be bq; rfl
  | cons m rest ih =>
      intro i be bq
      cases hf : findBestStartingPosition m (some p) with
      | none =>
          rw [scanGo_cons_none p fc m rest i be bq hf]
          show m :: (scanGo p fc rest (i + 1) be bq).2.2 = _
          rw [ih (i + 1) be bq, List.map_cons]
          congr 1
          unfold procMatcher
          rw [hf]
      | some startPos =>
          by_cases hgt : getMatchQuality (stepMatcher
            { reset m with matchPosition := startPos } (some p) fc) > bq
          · rw [scanGo_cons_some_gt p fc m rest i be bq startPos hf hgt]
            show stepMatcher { reset m with matchPosition := startPos } (some p) fc ::
              (scanGo p fc rest (i + 1) (some i) _).2.2 = _
            rw [ih, List.map_cons]
            congr 1
            unfold procMatcher
            rw [hf]
          · rw [scanGo_cons_some_le p fc m rest i be bq startPos hf hgt]
            show stepMatcher { reset m with matchPosition := startPos } (some p) fc ::
              (scanGo p fc rest (i + 1) be bq).2.2 = _
            rw [ih, List.map_cons]
            congr 1
            unfold procMatcher
            rw [hf]

lemma scanGo_at_reward (p : PoseState) (fc : Int) :
    ∀ (ms : List SequenceMatcher) (i k : Nat),
      (scanGo p fc ms i (some k) CONFIDENCE_MATCH).1 = some k ∧
      (scanGo p fc ms i (some k) CONFIDENCE_MATCH).2.1 = CONFIDENCE_MATCH := by
  intro ms
  induction ms with
  | nil => intro i k; exact ⟨rfl, rfl⟩
  | cons m rest ih =>
      intro i k
      cases hf : findBestStartingPosition m (some p) with
      | none =>
          rw [scanGo_cons_none p fc m rest i (some k) CONFIDENCE_MATCH hf]
          exact ⟨(ih (i + 1) k).1, (ih (i + 1) k).2⟩
      | some startPos =>
          have hq : getMatchQuality (stepMatcher
              { reset m with matchPosition := startPos } (some p) fc) =
              CONFIDENCE_MATCH := hit_step_conf m p fc startPos hf
          rw [scanGo_cons_some_le p fc m rest i (some k) CONFIDENCE_MATCH startPos hf
            (by rw [hq]; exact lt_irrefl _)]
          exact ⟨(ih (i + 1) k).1, (ih (i + 1) k).2⟩

lemma scanGo_first_hit (p : PoseState) (fc : Int) :
    ∀ (ms : List SequenceMatcher) (i j : Nat), j < ms.length →
      findBestStartingPosition (ms.getD j defaultMatcher) (some p) ≠ none →
      (∀ l, l < j → findBestStartingPosition (ms.getD l defaultMatcher) (some p) = none) →
      (scanGo p fc ms i none 0).1 = some (i + j) ∧
      (scanGo p fc ms i none 0).2.1 = CONFIDENCE_MATCH := by
  intro ms
  induction ms with
  | nil => intro i j hj; exact absurd hj (by simp)
  | cons m rest ih =>
      intro i j hj hhit hfirst
      cases j with
      | zero =>
          rw [List.getD_cons_zero] at hhit
          cases hf : findBestStartingPosition m (some p) with
          | none => exact absurd hf hhit
          | some startPos =>
              have hq : getMatchQuality (stepMatcher
                  { reset m with matchPosition := startPos } (some p) fc) =
                  CONFIDENCE_MATCH := hit_step_conf m p fc startPos hf
              rw [scanGo_cons_some_gt p fc m rest i none 0 startPos hf
                (by rw [hq]; norm_num [CONFIDENCE_MATCH])]
              rw [hq]
              refine ⟨?_, (scanGo_at_reward p fc rest (i + 1) i).2⟩
              rw [show i + 0 = i from rfl]
              exact (scanGo_at_reward p fc rest (i + 1) i).1
      | succ j' =>
          have hf0 : findBestStartingPosition m (some p) = none := by
            have := hfirst 0 (Nat.succ_pos j')
            rwa [List.getD_cons_zero] at this
          rw [List.getD_cons_succ] at hhit
          rw [scanGo_cons_none p fc m rest i none 0 hf0]
          obtain ⟨h1, h2⟩ := ih (i + 1) j' (by simpa using hj) hhit
            (fun l hl => by
              have := hfirst (l + 1) (by omega)
              rwa [List.getD_cons_succ] at this)
          refine ⟨?_, h2⟩
          show (scanGo p fc rest (i + 1) none 0).1 = some (i + (j' + 1))
          rw [h1]
          congr 1
          omega

lemma buildTransition_current (g : ArbState) (ms : List SequenceMatcher) (b : Nat)
    (bq : ℚ) (h : bq > QUALITY_THRESHOLD_BUILD) :
    (buildTransition g ms (some b) bq).currentCandidate = some b := by
  unfold buildTransition
  dsimp only
  rw [if_pos h]
  split_ifs <;> rfl

/-- C10: when no candidate is tracked and at least one enemy has a
starting position for the player's pose, every hit matcher's single
update is a perfect match leaving its quality at exactly the reward
constant, and the arbitrator always selects the first hit (in enemy
creation order) as the new current candidate — the build threshold never
rejects a fresh hit and simultaneous hits tie. -/
theorem fresh_hit_selection (g : ArbState) (hist : Nat) (p : PoseState) (fc : Int)
    (i0 : Nat)
    (hconf : g.confirmedCandidate = none)
    (hcur : g.currentCandidate = none)
    (hh : 5 ≤ hist)
    (hi0 : i0 < g.matchers.length)
    (hhit : findBestStartingPosition (g.matchers.getD i0 defaultMatcher) (some p) ≠ none)
    (hfirst : ∀ j, j < i0 →
      findBestStartingPosition (g.matchers.getD j defaultMatcher) (some p) = none) :
    (checkPlayerMatches g hist p fc).currentCandidate = some i0 ∧
    ∀ j, j < g.matchers.length →
      findBestStartingPosition (g.matchers.getD j defaultMatcher) (some p) ≠ none →
      ((checkPlayerMatches g hist p fc).matchers.getD j defaultMatcher).confidenceScore =
        CONFIDENCE_MATCH := by
  rw [checkPlayerMatches_scan g hist p fc (by omega) hconf hcur]
  obtain ⟨hbest, hbq⟩ := scanGo_first_hit p fc g.matchers 0 i0 hi0 hhit hfirst
  constructor
  · rw [hbest, hbq]
    rw [show (0 : Nat) + i0 = i0 by omega]
    exact buildTransition_current _ _ _ _
      (by norm_num [CONFIDENCE_MATCH, QUALITY_THRESHOLD_BUILD])
  · intro j hj hjhit
    rw [buildTransition_matchers, scanGo_matchers p fc g.matchers 0 none 0,
      getD_map _ _ _ hj]
    cases hf : findBestStartingPosition (g.matchers.getD j defaultMatcher) (some p) with
    | none => exact absurd hf hjhit
    | some pos => exact procMatcher_conf p fc _ pos hf

theorem fresh_hit_selection_witness :
    (checkPlayerMatches (⟨[mkMatcher [poseL, poseIdle]], none, none, 0⟩ : ArbState)
      5 poseL 0).currentCandidate = some 0 :=
  (fresh_hit_selection ⟨[mkMatcher [poseL, poseIdle]], none, none, 0⟩ 5 poseL 0 0 rfl rfl
    (by omega) (by decide) (by decide) (fun j hj => absurd hj (Nat.not_lt_zero j))).1

end Disguise
